import Mathlib

set_option maxRecDepth 16384

/-!
Verification development for the JARVIS2026 media-ingestion and
reward-accounting pipeline (`src/main.rs`).

The embedding models:
  * `calculate_file_hash` — SHA-256 (via the `sha2` crate) hex-encoded
    with `hex::encode`; implemented here as an executable FIPS 180-4
    SHA-256 over byte lists (`List Nat`, each entry < 256).
  * the Postgres tables created by `init_db` (`users`, `properties`,
    `media_uploads`, `token_transactions`) as lists of rows, with the
    schema's PRIMARY KEY / UNIQUE / FOREIGN KEY constraints modelled as
    insert-failure conditions.  Timestamp columns (`created_at`,
    `uploaded_at`) are real-time defaults and are not modelled; no claim
    mentions them.  `DOUBLE PRECISION` columns (`price`, `area_sqm`) are
    carried as an uninterpreted `F64` value: the code never computes on
    them in the modelled scope.
  * the handlers `create_user`, `award_tokens` and `upload_property`
    (from the point after multipart parsing) as state transformers.
    Fallibility of the external world (database availability, file
    creation and write results) is an explicit oracle parameter; UUID
    generation (`Uuid::new_v4`, `gen_random_uuid`) is an arbitrary
    caller-supplied identifier, with the PRIMARY KEY constraint, not
    freshness assumptions, preventing collisions in the store.
-/

/-! ### SHA-256 (the `sha2` crate behind `calculate_file_hash`) -/

/-- 32-bit truncating addition on `Nat`, as `u32` wrapping addition. -/
def add32 (a b : Nat) : Nat := (a + b) % 2 ^ 32

/-- Right rotation of a 32-bit word. -/
def rotr (n w : Nat) : Nat := (w / 2 ^ n + w % 2 ^ n * 2 ^ (32 - n)) % 2 ^ 32

/-- Logical right shift of a 32-bit word. -/
def shr (n w : Nat) : Nat := w / 2 ^ n

/-- SHA-256 `Ch(x,y,z) = (x ∧ y) ⊕ (¬x ∧ z)`. -/
def chFn (x y z : Nat) : Nat := (x &&& y) ^^^ ((x ^^^ 0xffffffff) &&& z)

/-- SHA-256 `Maj(x,y,z)`. -/
def majFn (x y z : Nat) : Nat := (x &&& y) ^^^ (x &&& z) ^^^ (y &&& z)

/-- SHA-256 `Σ₀`. -/
def bigSigma0 (w : Nat) : Nat := rotr 2 w ^^^ rotr 13 w ^^^ rotr 22 w

/-- SHA-256 `Σ₁`. -/
def bigSigma1 (w : Nat) : Nat := rotr 6 w ^^^ rotr 11 w ^^^ rotr 25 w

/-- SHA-256 `σ₀`. -/
def smallSigma0 (w : Nat) : Nat := rotr 7 w ^^^ rotr 18 w ^^^ shr 3 w

/-- SHA-256 `σ₁`. -/
def smallSigma1 (w : Nat) : Nat := rotr 17 w ^^^ rotr 19 w ^^^ shr 10 w

/-- The 64 SHA-256 round constants (FIPS 180-4 §4.2.2, in decimal). -/
def k256 : List Nat :=
  [1116352408, 1899447441, 3049323471, 3921009573, 961987163, 1508970993,
   2453635748, 2870763221, 3624381080, 310598401, 607225278, 1426881987,
   1925078388, 2162078206, 2614888103, 3248222580, 3835390401, 4022224774,
   264347078, 604807628, 770255983, 1249150122, 1555081692, 1996064986,
   2554220882, 2821834349, 2952996808, 3210313671, 3336571891, 3584528711,
   113926993, 338241895, 666307205, 773529912, 1294757372, 1396182291,
   1695183700, 1986661051, 2177026350, 2456956037, 2730485921, 2820302411,
   3259730800, 3345764771, 3516065817, 3600352804, 4094571909, 275423344,
   430227734, 506948616, 659060556, 883997877, 958139571, 1322822218,
   1537002063, 1747873779, 1955562222, 2024104815, 2227730452, 2361852424,
   2428436474, 2756734187, 3204031479, 3329325298]

/-- The eight 32-bit words of a SHA-256 state. -/
structure Hash8 where
  a : Nat
  b : Nat
  c : Nat
  d : Nat
  e : Nat
  f : Nat
  g : Nat
  h : Nat
deriving DecidableEq

/-- SHA-256 initial state (FIPS 180-4 §5.3.3, in decimal). -/
def initHash : Hash8 :=
  ⟨1779033703, 3144134277, 1013904242, 2773480762,
   1359893119, 2600822924, 528734635, 1541459225⟩

/-- SHA-256 padding: append `0x80`, zeros to 56 mod 64, then the 64-bit
big-endian bit length. -/
def padMessage (msg : List Nat) : List Nat :=
  let l := msg.length * 8
  msg ++ [0x80] ++ List.replicate ((120 - (msg.length + 1) % 64) % 64) 0 ++
    [l / 2 ^ 56 % 256, l / 2 ^ 48 % 256, l / 2 ^ 40 % 256, l / 2 ^ 32 % 256,
     l / 2 ^ 24 % 256, l / 2 ^ 16 % 256, l / 2 ^ 8 % 256, l % 256]

/-- Split a byte list into 64-byte blocks (fuel-driven so that kernel
reduction works; called with fuel ≥ the list length). -/
def chunks64 : Nat → List Nat → List (List Nat)
  | 0, _ => []
  | _, [] => []
  | fuel + 1, l => l.take 64 :: chunks64 fuel (l.drop 64)

/-- Read `n` big-endian 32-bit words from a byte list. -/
def blockWords : Nat → List Nat → List Nat
  | 0, _ => []
  | n + 1, b0 :: b1 :: b2 :: b3 :: rest =>
      (b0 * 2 ^ 24 + b1 * 2 ^ 16 + b2 * 2 ^ 8 + b3) :: blockWords n rest
  | _ + 1, _ => []

/-- Extend the 16-word message schedule by `n` further words. -/
def extendSchedule : Nat → List Nat → List Nat
  | 0, ws => ws
  | n + 1, ws =>
      let t := ws.length
      let w := add32 (add32 (smallSigma1 (ws.getD (t - 2) 0)) (ws.getD (t - 7) 0))
                     (add32 (smallSigma0 (ws.getD (t - 15) 0)) (ws.getD (t - 16) 0))
      extendSchedule n (ws ++ [w])

/-- One SHA-256 compression round, consuming a pair (round constant, scheduled word). -/
def compressStep (s : Hash8) (kw : Nat × Nat) : Hash8 :=
  let t1 := add32 s.h (add32 (bigSigma1 s.e) (add32 (chFn s.e s.f s.g) (add32 kw.1 kw.2)))
  let t2 := add32 (bigSigma0 s.a) (majFn s.a s.b s.c)
  ⟨add32 t1 t2, s.a, s.b, s.c, add32 s.d t1, s.e, s.f, s.g⟩

/-- Process one 64-byte block. -/
def processBlock (s : Hash8) (block : List Nat) : Hash8 :=
  let ws := extendSchedule 48 (blockWords 16 block)
  let r := (k256.zip ws).foldl compressStep s
  ⟨add32 s.a r.a, add32 s.b r.b, add32 s.c r.c, add32 s.d r.d,
   add32 s.e r.e, add32 s.f r.f, add32 s.g r.g, add32 s.h r.h⟩

/-- SHA-256 of a byte list, as the final eight-word state. -/
def sha256State (msg : List Nat) : Hash8 :=
  let padded := padMessage msg
  (chunks64 padded.length padded).foldl processBlock initHash

/-- Big-endian bytes of one 32-bit word. -/
def wordBytes (w : Nat) : List Nat :=
  [w / 2 ^ 24 % 256, w / 2 ^ 16 % 256, w / 2 ^ 8 % 256, w % 256]

/-- The 32 digest bytes of a SHA-256 state. -/
def digestBytes (s : Hash8) : List Nat :=
  wordBytes s.a ++ wordBytes s.b ++ wordBytes s.c ++ wordBytes s.d ++
  wordBytes s.e ++ wordBytes s.f ++ wordBytes s.g ++ wordBytes s.h

/-- Lower-case hex digit, as produced by `hex::encode`. -/
def hexDigitChar (n : Nat) : Char :=
  if n < 10 then Char.ofNat (48 + n) else Char.ofNat (87 + n)

/-- Hex-encode a byte list, two lower-case digits per byte (`hex::encode`). -/
def hexEncode (bs : List Nat) : String :=
  String.mk (bs.foldr (fun b s => hexDigitChar (b / 16) :: hexDigitChar (b % 16) :: s) [])

/-- `calculate_file_hash` (src/main.rs:171-175): SHA-256 of the payload
bytes, hex-encoded.  Pure function of the bytes alone. -/
def calculate_file_hash (file_data : List Nat) : String :=
  hexEncode (digestBytes (sha256State file_data))

/-- Recogniser for lower-case hex characters. -/
def isHexChar (c : Char) : Bool :=
  ('0' ≤ c && c ≤ '9') || ('a' ≤ c && c ≤ 'f')

/-! ### Data model (tables created by `init_db`, src/main.rs:94-165) -/

/-- Uninterpreted carrier for `DOUBLE PRECISION` / `f64` values; the
modelled code only stores them, never computes on them. -/
structure F64 where
  bits : Nat
deriving DecidableEq

/-- A row of the `users` table (src/main.rs:98-104): id, unique
username, optional wallet address, `token_balance BIGINT DEFAULT 0`. -/
structure UserRow where
  id : Nat
  username : String
  wallet_address : Option String
  token_balance : Int
deriving DecidableEq

/-- A row of the `properties` table (src/main.rs:110-124).  The image
columns and aggregate `content_hash` are nullable and left NULL by
`upload_property`. -/
structure PropertyRow where
  id : Nat
  title : String
  location : String
  price : F64
  description : String
  image_thumb_webp : Option String
  image_large_webp : Option String
  bedrooms : Option Int
  bathrooms : Option Int
  area_sqm : Option F64
  user_id : Option Nat
  content_hash : Option String
deriving DecidableEq

/-- A row of the `media_uploads` table (src/main.rs:130-141).  The
`content_hash` column is `UNIQUE NOT NULL`. -/
structure MediaRow where
  id : Nat
  property_id : Nat
  user_id : Nat
  file_path : String
  file_type : String
  content_hash : String
  file_size : Int
  is_original : Bool
  tokens_earned : Int
deriving DecidableEq

/-- A row of the `token_transactions` table (src/main.rs:147-154). -/
structure TxRow where
  id : Nat
  user_id : Nat
  media_id : Nat
  amount : Int
  transaction_type : String
deriving DecidableEq

/-- The database state: the four tables as ordered row lists. -/
structure DB where
  users : List UserRow
  properties : List PropertyRow
  media : List MediaRow
  transactions : List TxRow
deriving DecidableEq

/-- The empty database produced by `init_db` on a fresh server. -/
def initDB : DB := ⟨[], [], [], []⟩

/-- `ORIGINAL_UPLOAD_TOKENS` (src/main.rs:88). -/
def ORIGINAL_UPLOAD_TOKENS : Int := 100

/-! ### Database operations -/

/-- `check_duplicate` (src/main.rs:177-184): `SELECT COUNT(*) FROM
media_uploads WHERE content_hash = $1`, compared with 0.  The `qOk`
oracle is the query's database availability; `none` models the
`Err` case of the returned `Result`. -/
def check_duplicate (db : DB) (content_hash : String) (qOk : Bool) : Option Bool :=
  if qOk then
    some (0 < (db.media.filter (fun m => m.content_hash == content_hash)).length)
  else
    none

/-- `UPDATE users SET token_balance = token_balance + $1 WHERE id = $2`:
bumps every row matching the id (the PRIMARY KEY makes that at most
one); matching zero rows is a success, not an error. -/
def bumpBalance (users : List UserRow) (user_id : Nat) (amount : Int) : List UserRow :=
  users.map fun u =>
    if u.id == user_id then { u with token_balance := u.token_balance + amount } else u

/-- `award_tokens` (src/main.rs:186-212): inside one database
transaction, increment the user's balance and insert one
`token_transactions` row with `transaction_type = 'upload_reward'`.
`txId` stands for the row's `gen_random_uuid()` default; `beginOk`,
`updOk`, `insOk`, `commitOk` are the availability oracles of the four
database round-trips.  The insert also fails on its PRIMARY KEY or on
the FOREIGN KEYs to `users` and `media_uploads`.  A `none` result is
the `Err` case: the transaction rolls back, so the caller's state is
unchanged. -/
def award_tokens (db : DB) (user_id media_id : Nat) (amount : Int)
    (txId : Nat) (beginOk updOk insOk commitOk : Bool) : Option DB :=
  if !beginOk then none
  else if !updOk then none
  else
    let db1 : DB := { db with users := bumpBalance db.users user_id amount }
    if !insOk || db.transactions.any (fun t => t.id == txId) ||
        !(db.users.any (fun u => u.id == user_id)) ||
        !(db.media.any (fun m => m.id == media_id)) then none
    else
      let db2 : DB :=
        { db1 with transactions :=
            db1.transactions ++ [⟨txId, user_id, media_id, amount, "upload_reward"⟩] }
      if !commitOk then none else some db2

/-- `create_user` (src/main.rs:274-298): `INSERT INTO users (username,
wallet_address) VALUES ($1, $2) RETURNING *`.  `newId` stands for the
`gen_random_uuid()` default; the insert fails on the PRIMARY KEY or on
the UNIQUE username, or when the database is unavailable (`dbOk`).
`token_balance` takes its `DEFAULT 0`. -/
def create_user (db : DB) (newId : Nat) (username : String)
    (wallet_address : Option String) (dbOk : Bool) : Option (UserRow × DB) :=
  if !dbOk || db.users.any (fun u => u.id == newId) ||
      db.users.any (fun u => u.username == username) then none
  else
    let u : UserRow := ⟨newId, username, wallet_address, 0⟩
    some (u, { db with users := db.users ++ [u] })

/-! ### The ingestion pipeline (`upload_property`, src/main.rs:316-504) -/

/-- `UploadResponse` (src/main.rs:64-71). -/
structure UploadResponse where
  success : Bool
  property_id : Nat
  media_ids : List Nat
  tokens_earned : Int
  message : String
deriving DecidableEq

/-- Per-file external nondeterminism for one iteration of the upload
loop: the fresh `Uuid::new_v4` for the media row, the
`gen_random_uuid()` for a possible reward transaction row, and the
availability oracles of the duplicate-check query (`dupCheckOk`),
`File::create` (`createOk`), `write_all` (`writeOk`), the
`media_uploads` insert (`insertOk`) and the four `award_tokens`
round-trips. -/
structure FileChoices where
  mediaId : Nat
  txId : Nat
  dupCheckOk : Bool
  createOk : Bool
  writeOk : Bool
  insertOk : Bool
  awardBeginOk : Bool
  awardUpdOk : Bool
  awardInsOk : Bool
  awardCommitOk : Bool
deriving DecidableEq

/-- The all-successful oracle for one file. -/
def allOk (mediaId txId : Nat) : FileChoices :=
  ⟨mediaId, txId, true, true, true, true, true, true, true, true⟩

/-- The durable-storage path used for an uploaded file
(src/main.rs:454): `format!("uploads/{}", filename)` — derived from the
user-supplied filename alone. -/
def uploadFilePath (filename : String) : String :=
  "uploads/" ++ filename

/-- `str::ends_with`, as a structurally recursive suffix test on the
character list (kernel-computable, unlike `String.endsWith`). -/
def strEndsWith (s pat : String) : Bool :=
  List.isSuffixOf pat.data s.data

/-- File-kind classification (src/main.rs:458-462): `.mp4`/`.mov` →
`video`, anything else → `image`. -/
def classifyFileType (filename : String) : String :=
  if strEndsWith filename ".mp4" || strEndsWith filename ".mov" then "video" else "image"

/-- The local filesystem under `uploads/`: an association of path to
stored bytes, last write wins. -/
abbrev FileSys : Type := List (String × List Nat)

/-- `File::create` then `write_all`: the path now holds the payload if
the write succeeded, and is left truncated-empty when `write_all`
failed (its error is discarded with `.ok()`; partial writes are not
distinguished — no claim inspects failed contents). -/
def setFile (fsys : FileSys) (path : String) (contents : List Nat) : FileSys :=
  (fsys.filter (fun e => !(e.1 == path))) ++ [(path, contents)]

/-- Accumulator of the per-file loop (src/main.rs:438-439 and the loop
state): database, filesystem, `total_tokens`, `media_ids`. -/
structure LoopAcc where
  db : DB
  fsys : FileSys
  total_tokens : Int
  media_ids : List Nat

/-- The `media_uploads` row bound by the insert at src/main.rs:465-480:
fresh id, property and user references, the path and kind derived from
the filename, the digest, the byte size, and the precomputed
`is_original` / `tokens_earned` values. -/
def mkMediaRow (property_id user_id : Nat) (filename : String) (file_data : List Nat)
    (media_id : Nat) (is_original : Bool) (tokens : Int) : MediaRow :=
  ⟨media_id, property_id, user_id, uploadFilePath filename, classifyFileType filename,
   calculate_file_hash file_data, (file_data.length : Int), is_original, tokens⟩

/-- The `media_uploads` insert: fails (leaving the table unchanged)
when the database is unavailable (`ok`), on the PRIMARY KEY, on either
FOREIGN KEY, or on the UNIQUE `content_hash` constraint.  The caller
discards the error (`.ok()`, src/main.rs:480). -/
def mediaInsert (db : DB) (row : MediaRow) (ok : Bool) : DB :=
  if !ok || db.media.any (fun m => m.id == row.id) ||
      !(db.properties.any (fun p => p.id == row.property_id)) ||
      !(db.users.any (fun u => u.id == row.user_id)) ||
      db.media.any (fun m => m.content_hash == row.content_hash) then db
  else { db with media := db.media ++ [row] }

/-- One iteration of the per-file loop (src/main.rs:441-490):
hash → advisory duplicate check (`.unwrap_or(false)`) → `File::create`
(`.unwrap()`: a failure panics, returning `none`) → `write_all`
(`.ok()`: failure ignored) → `media_uploads` insert (`.ok()`: failure —
including the UNIQUE `content_hash` violation — ignored) → if
`is_original`, `award_tokens` (`.ok()`: failure ignored) and
`total_tokens += tokens` → push `media_id` unconditionally. -/
def processFile (property_id user_id : Nat) (acc : LoopAcc)
    (file : String × List Nat) (c : FileChoices) : Option LoopAcc :=
  let content_hash := calculate_file_hash file.2
  let is_duplicate := (check_duplicate acc.db content_hash c.dupCheckOk).getD false
  let is_original := !is_duplicate
  let tokens : Int := if is_original then ORIGINAL_UPLOAD_TOKENS else 0
  if !c.createOk then none
  else
    let fsys := setFile acc.fsys (uploadFilePath file.1) (if c.writeOk then file.2 else [])
    let db1 := mediaInsert acc.db (mkMediaRow property_id user_id file.1 file.2
        c.mediaId is_original tokens) c.insertOk
    let db2 : DB :=
      if is_original then
        (award_tokens db1 user_id c.mediaId tokens c.txId
            c.awardBeginOk c.awardUpdOk c.awardInsOk c.awardCommitOk).getD db1
      else db1
    some { db := db2, fsys := fsys,
           total_tokens := if is_original then acc.total_tokens + tokens else acc.total_tokens,
           media_ids := acc.media_ids ++ [c.mediaId] }

/-- The whole per-file loop.  The boolean is `true` when a
`File::create` `.unwrap()` panicked; the accumulator is then the state
at the panic point (the loop has no state change before that unwrap in
the panicking iteration). -/
def processFiles (property_id user_id : Nat) :
    LoopAcc → List ((String × List Nat) × FileChoices) → LoopAcc × Bool
  | acc, [] => (acc, false)
  | acc, (f, c) :: rest =>
      match processFile property_id user_id acc f c with
      | none => (acc, true)
      | some acc' => processFiles property_id user_id acc' rest

/-- Outcome of an `upload_property` request.  `badRequest` is the 400
for a missing `user_id` (before any persistence); `serverError` the 500
when the `properties` insert fails; `panicked` the aborted handler
after a `File::create` unwrap failure; `ok` the 200 response. -/
inductive UploadOutcome where
  | badRequest : UploadOutcome
  | serverError : DB → FileSys → UploadOutcome
  | panicked : DB → FileSys → UploadOutcome
  | ok : UploadResponse → DB → FileSys → UploadOutcome
deriving DecidableEq

/-- `upload_property` (src/main.rs:316-504) from the point after
multipart parsing: require `user_id`, insert the `properties` row
(`property_id` stands for the handler's `Uuid::new_v4`; the insert
fails on PRIMARY KEY, on the FOREIGN KEY to `users`, or when the
database is unavailable via `propInsertOk`), then run the per-file
loop and build the `UploadResponse`. -/
def upload_property (db : DB) (fsys : FileSys) (user_id? : Option Nat)
    (title location : String) (price : F64) (description : String)
    (bedrooms bathrooms : Option Int) (area_sqm : Option F64)
    (property_id : Nat) (propInsertOk : Bool)
    (files : List ((String × List Nat) × FileChoices)) : UploadOutcome :=
  match user_id? with
  | none => .badRequest
  | some user_id =>
    if !propInsertOk || db.properties.any (fun p => p.id == property_id) ||
        !(db.users.any (fun u => u.id == user_id)) then
      .serverError db fsys
    else
      let db1 : DB := { db with properties := db.properties ++
          [⟨property_id, title, location, price, description, none, none,
            bedrooms, bathrooms, area_sqm, some user_id, none⟩] }
      match processFiles property_id user_id ⟨db1, fsys, 0, []⟩ files with
      | (acc, true) => .panicked acc.db acc.fsys
      | (acc, false) =>
          .ok ⟨true, property_id, acc.media_ids, acc.total_tokens,
               "Property created! Earned " ++ toString acc.total_tokens ++ " tokens"⟩
            acc.db acc.fsys

/-- The database state after an `upload_property` request (the original
state when the request was rejected before persisting anything). -/
def uploadFinalDB (o : UploadOutcome) (orig : DB) : DB :=
  match o with
  | .badRequest => orig
  | .serverError db _ => db
  | .panicked db _ => db
  | .ok _ db _ => db

/-- The response of an `upload_property` request, when one was sent. -/
def respOf (o : UploadOutcome) : Option UploadResponse :=
  match o with
  | .ok r _ _ => some r
  | _ => none

/-! ### Reachable database states -/

/-- Database states reachable through the handlers that write: a fresh
`init_db` schema, then any interleaving of `create_user` and
`upload_property` requests with arbitrary inputs, identifiers and
oracle outcomes.  The remaining handlers only read. -/
inductive Reachable : DB → Prop where
  | init : Reachable initDB
  | createUser {db : DB} {i : Nat} {un : String} {w : Option String} {ok : Bool}
      {u : UserRow} {db' : DB} :
      Reachable db → create_user db i un w ok = some (u, db') → Reachable db'
  | upload {db : DB} {fsys : FileSys} {uid? : Option Nat} {t l : String} {pr : F64}
      {d : String} {bed bath : Option Int} {ar : Option F64} {pid : Nat} {pOk : Bool}
      {files : List ((String × List Nat) × FileChoices)} :
      Reachable db →
      Reachable (uploadFinalDB
        (upload_property db fsys uid? t l pr d bed bath ar pid pOk files) db)

/-! ### Invariant vocabulary -/

/-- The sum of a user's `token_transactions` amounts. -/
def sumAmounts (txs : List TxRow) (uid : Nat) : Int :=
  ((txs.filter (fun t => t.user_id == uid)).map (fun t => t.amount)).sum

/-- Ledger consistency: every balance equals the sum of that user's
transaction amounts, and every transaction references an existing user
(the FOREIGN KEY, needed to carry the first part through
`create_user`). -/
def LedgerInv (db : DB) : Prop :=
  (∀ u ∈ db.users, u.token_balance = sumAmounts db.transactions u.id) ∧
  (∀ t ∈ db.transactions, ∃ u ∈ db.users, u.id = t.user_id)

/-- The `media_uploads` UNIQUE constraint, as a state predicate: all
stored content hashes are pairwise distinct. -/
def HashesNodup (db : DB) : Prop :=
  (db.media.map (fun m => m.content_hash)).Nodup

/-- Equality of the database-visible parts of two per-file loop
outcomes (everything except the filesystem). -/
def sameDbOutcome : Option LoopAcc → Option LoopAcc → Prop
  | none, none => True
  | some a, some b => a.db = b.db ∧ a.total_tokens = b.total_tokens ∧ a.media_ids = b.media_ids
  | _, _ => False

/-! ### Concrete scenario inputs -/

/-- The store after `create_user` made one user `alice` with id 0. -/
def aliceDB : DB := ⟨[⟨0, "alice", none, 0⟩], [], [], []⟩

/-- First upload: user 0 sends one file `a.jpg` with bytes `[1,2,3]`;
everything succeeds. -/
def c1run1 : UploadOutcome :=
  upload_property aliceDB [] (some 0) "t" "l" ⟨0⟩ "d" none none none 1 true
    [(("a.jpg", [1, 2, 3]), allOk 2 3)]

/-- Store after the first upload. -/
def c1db1 : DB := uploadFinalDB c1run1 aliceDB

/-- Second request uploading the exact same bytes again. -/
def c1run2 : UploadOutcome :=
  upload_property c1db1 [] (some 0) "t" "l" ⟨0⟩ "d" none none none 4 true
    [(("a.jpg", [1, 2, 3]), allOk 5 6)]

/-- Store after the duplicate upload. -/
def c1db2 : DB := uploadFinalDB c1run2 c1db1

/-- Race-loser request: the digest of `[1,2,3]` is already stored but
the advisory duplicate check does not see it (its query errors and
`.unwrap_or(false)` makes the file count as original), so the
`media_uploads` insert runs straight into the UNIQUE constraint. -/
def c2run : UploadOutcome :=
  upload_property c1db1 [] (some 0) "t" "l" ⟨0⟩ "d" none none none 4 true
    [(("b.jpg", [1, 2, 3]), { allOk 5 6 with dupCheckOk := false })]

/-- A request whose single `media_uploads` insert fails at the
database level (the error is discarded with `.ok()`). -/
def c7run : UploadOutcome :=
  upload_property aliceDB [] (some 0) "t" "l" ⟨0⟩ "d" none none none 1 true
    [(("a.jpg", [1]), { allOk 2 3 with insertOk := false })]

/-- The response of `c7run`. -/
def c7resp : UploadResponse :=
  ⟨true, 1, [2], 100, "Property created! Earned 100 tokens"⟩

/-- A request whose single file's `write_all` fails (the error is
discarded with `.ok()`). -/
def c8run : UploadOutcome :=
  upload_property aliceDB [] (some 0) "t" "l" ⟨0⟩ "d" none none none 1 true
    [(("a.jpg", [1]), { allOk 2 3 with writeOk := false })]

/-- A request with two distinct files carrying the same filename. -/
def c9run : UploadOutcome :=
  upload_property aliceDB [] (some 0) "t" "l" ⟨0⟩ "d" none none none 1 true
    [(("a.jpg", [1]), allOk 2 3), (("a.jpg", [2]), allOk 4 5)]

/-- Loop state right after the `properties` insert of a request by
user 0 for property 1, before any file is processed. -/
def c9acc0 : LoopAcc :=
  ⟨⟨[⟨0, "alice", none, 0⟩],
    [⟨1, "t", "l", ⟨0⟩, "d", none, none, none, none, none, some 0, none⟩], [], []⟩,
   [], 0, []⟩

/-- The `media_uploads` row produced for file `("a.jpg", [1])` in state
`c9acc0` with oracle `allOk 2 3`. -/
def c9row : MediaRow :=
  ⟨2, 1, 0, "uploads/a.jpg", "image", calculate_file_hash [1], 1, true, 100⟩

/-- An upload whose reward transaction fails at `commit` (the error is
discarded with `.ok()`). -/
def c10runFail : UploadOutcome :=
  upload_property aliceDB [] (some 0) "t" "l" ⟨0⟩ "d" none none none 1 true
    [(("a.jpg", [7]), { allOk 2 3 with awardCommitOk := false })]

/-- The same upload with the reward transaction succeeding. -/
def c10runOk : UploadOutcome :=
  upload_property aliceDB [] (some 0) "t" "l" ⟨0⟩ "d" none none none 1 true
    [(("a.jpg", [7]), allOk 2 3)]

/-- SHA-256 test vector: the empty message. -/
theorem sha256_vector_empty :
    calculate_file_hash [] =
      "e3b0c44298fc1c149afbf4c8996fb92427ae41e4649b934ca495991b7852b855" := by
  decide

/-- SHA-256 test vector: "abc". -/
theorem sha256_vector_abc :
    calculate_file_hash [97, 98, 99] =
      "ba7816bf8f01cfea414140de5dae2223b00361a396177a9cb410ff61f20015ad" := by
  decide

/-! ### Supporting lemmas about the hasher -/

theorem hexFoldr_length (bs : List Nat) :
    (bs.foldr (fun b s => hexDigitChar (b / 16) :: hexDigitChar (b % 16) :: s)
      ([] : List Char)).length = 2 * bs.length := by
  induction bs with
  | nil => rfl
  | cons b bs ih => simp [ih]; ring

theorem hexEncode_length (bs : List Nat) : (hexEncode bs).length = 2 * bs.length := by
  simpa [hexEncode, String.length] using hexFoldr_length bs

theorem hexDigitChar_hex : ∀ n < 16, isHexChar (hexDigitChar n) = true := by decide

theorem hexFoldr_all_hex (bs : List Nat) (hlt : ∀ b ∈ bs, b < 256) :
    ((bs.foldr (fun b s => hexDigitChar (b / 16) :: hexDigitChar (b % 16) :: s)
      ([] : List Char)).all isHexChar) = true := by
  induction bs with
  | nil => rfl
  | cons b bs ih =>
      have hb : b < 256 := hlt b (List.mem_cons_self _ _)
      have h1 : b / 16 < 16 := Nat.div_lt_of_lt_mul (by omega)
      have h2 : b % 16 < 16 := Nat.mod_lt _ (by norm_num)
      simp [hexDigitChar_hex _ h1, hexDigitChar_hex _ h2,
            ih (fun x hx => hlt x (List.mem_cons_of_mem _ hx))]

theorem wordBytes_lt (w : Nat) : ∀ b ∈ wordBytes w, b < 256 := by
  intro b hb
  simp [wordBytes] at hb
  rcases hb with rfl | rfl | rfl | rfl <;> exact Nat.mod_lt _ (by norm_num)

theorem digestBytes_lt (s : Hash8) : ∀ b ∈ digestBytes s, b < 256 := by
  intro b hb
  simp only [digestBytes, List.mem_append] at hb
  rcases hb with ((((((h | h) | h) | h) | h) | h) | h) | h <;> exact wordBytes_lt _ _ h

theorem digestBytes_length (s : Hash8) : (digestBytes s).length = 32 := by
  simp [digestBytes, wordBytes]

/-- Claim C6 (confirmed): the content hasher is a pure function of the
byte payload alone — the filename and upload-order arguments below do
not even reach it — returning a fixed-length (64-character) hex-encoded
digest; byte-identical payloads yield identical digests. -/
theorem calculate_file_hash_deterministic_hex64
    (data₁ data₂ : List Nat) (filename₁ filename₂ : String) (order₁ order₂ : Nat)
    (hbytes : data₁ = data₂) :
    calculate_file_hash data₁ = calculate_file_hash data₂ ∧
    (calculate_file_hash data₁).length = 64 ∧
    ((calculate_file_hash data₁).toList.all isHexChar) = true := by
  subst hbytes
  refine ⟨rfl, ?_, ?_⟩
  · rw [calculate_file_hash, hexEncode_length, digestBytes_length]
  · have := hexFoldr_all_hex (digestBytes (sha256State data₁)) (digestBytes_lt _)
    simpa [calculate_file_hash, hexEncode, String.toList] using this

/-- Witness for C6 at a concrete payload uploaded under two filenames. -/
theorem calculate_file_hash_deterministic_hex64_witness :
    calculate_file_hash [1, 2, 3] = calculate_file_hash [1, 2, 3] ∧
    (calculate_file_hash [1, 2, 3]).length = 64 ∧
    ((calculate_file_hash [1, 2, 3]).toList.all isHexChar) = true :=
  calculate_file_hash_deterministic_hex64 [1, 2, 3] [1, 2, 3] "a.jpg" "b.png" 0 1 rfl

/-! ### `award_tokens` -/

theorem award_tokens_some_spec {db db' : DB} {uid mid : Nat} {amt : Int} {txId : Nat}
    {b u i c : Bool}
    (h : award_tokens db uid mid amt txId b u i c = some db') :
    db'.users = bumpBalance db.users uid amt ∧
    db'.transactions = db.transactions ++ [⟨txId, uid, mid, amt, "upload_reward"⟩] ∧
    db'.media = db.media ∧ db'.properties = db.properties ∧
    db.users.any (fun x => x.id == uid) = true ∧
    db.media.any (fun m => m.id == mid) = true := by
  unfold award_tokens at h
  split_ifs at h with h1 h2 h3 h4
  simp only [Option.some.injEq] at h
  subst h
  simp only [Bool.or_eq_true, Bool.not_eq_true'] at h3
  push_neg at h3
  obtain ⟨⟨⟨-, -⟩, huid⟩, hmid⟩ := h3
  refine ⟨rfl, rfl, rfl, rfl, ?_, ?_⟩ <;> simp_all

/-- Claim C3 (confirmed): `award_tokens` is atomic.  Either it returns
`Err` (`none`) — the enclosing database transaction rolls back and the
caller's state is the unchanged `db` — or it returns the state in which
the user's balance was incremented by `amount` and exactly one
`token_transactions` row referencing the media item was appended, with
the other tables untouched. -/
theorem award_tokens_atomic (db : DB) (uid mid : Nat) (amt : Int) (txId : Nat)
    (b u i c : Bool) :
    award_tokens db uid mid amt txId b u i c = none ∨
    ∃ db', award_tokens db uid mid amt txId b u i c = some db' ∧
      db'.users = bumpBalance db.users uid amt ∧
      db'.transactions = db.transactions ++ [⟨txId, uid, mid, amt, "upload_reward"⟩] ∧
      db'.media = db.media ∧ db'.properties = db.properties := by
  cases h : award_tokens db uid mid amt txId b u i c with
  | none => exact Or.inl rfl
  | some db' =>
      obtain ⟨h1, h2, h3, h4, -, -⟩ := award_tokens_some_spec h
      exact Or.inr ⟨db', rfl, h1, h2, h3, h4⟩

/-! ### Concrete executions of the pipeline -/

/-- Claim C1 (code bug): re-uploading the exact same bytes does NOT
produce a `MediaItem` row with `is_original = false` — it produces no
row at all.  After the duplicate request the store still holds exactly
the one original row (id 2, original, 100 tokens): the duplicate's
insert violated the blanket UNIQUE constraint on `content_hash` and
the error was discarded with `.ok()`, while the response still lists
the phantom id 5 and reports success. -/
theorem duplicate_upload_creates_no_row :
    ((uploadFinalDB c1run2 c1db1).media.map
        (fun m => (m.id, m.is_original, m.tokens_earned))) = [(2, true, 100)] ∧
    respOf c1run2 = some ⟨true, 4, [5], 0, "Property created! Earned 0 tokens"⟩ ∧
    ¬ ∃ m ∈ (uploadFinalDB c1run2 c1db1).media, m.is_original = false := by
  decide

/-- Claim C2 (code bug): when the `media_uploads` insert hits the
UNIQUE-`content_hash` violation (race-loser path: the digest is
already stored but the advisory check reported "not a duplicate"), the
violation is NOT converted into an `is_original = false` insert — the
error is discarded, no row is inserted, the reward transaction is
attempted anyway (and rolls back on its FOREIGN KEY to the missing
media row, leaving the ledger at one entry), and the response still
reports 100 tokens earned. -/
theorem constraint_violation_not_downgraded :
    ((uploadFinalDB c2run c1db1).media.map (fun m => (m.id, m.is_original))) = [(2, true)] ∧
    (uploadFinalDB c2run c1db1).transactions.length = 1 ∧
    ¬ (∃ m ∈ (uploadFinalDB c2run c1db1).media, m.is_original = false) ∧
    respOf c2run = some ⟨true, 4, [5], 100, "Property created! Earned 100 tokens"⟩ := by
  decide

/-- Claim C10 (confirmed): the response's `tokens_earned` counts the
fixed 100-token reward for a file deemed original even when the
`award_tokens` transaction fails (its `Result` is discarded at
src/main.rs:483-485): with the reward commit failing, the response
still reports 100 tokens while the user's balance stays 0 and the
ledger stays empty — the reported amount exceeds the credited amount —
whereas the same request with a successful reward credits 100. -/
theorem tokens_reported_exceed_credited :
    respOf c10runFail = some ⟨true, 1, [2], 100, "Property created! Earned 100 tokens"⟩ ∧
    (uploadFinalDB c10runFail aliceDB).users = [⟨0, "alice", none, 0⟩] ∧
    (uploadFinalDB c10runFail aliceDB).transactions = [] ∧
    (uploadFinalDB c10runOk aliceDB).users = [⟨0, "alice", none, 100⟩] := by
  decide

/-- Counterexample to claim C7 as stated: a request whose single
`media_uploads` insert failed still returns that file's freshly
generated id in `media_ids` — the response lists id 2 although no row
was persisted at all. -/
theorem media_ids_contain_unpersisted_id :
    respOf c7run = some c7resp ∧ c7resp.media_ids = [2] ∧
    (uploadFinalDB c7run aliceDB).media = [] ∧
    ¬ ∀ mid ∈ c7resp.media_ids, ∃ m ∈ (uploadFinalDB c7run aliceDB).media, m.id = mid := by
  decide

/-- Counterexample to claim C8 as stated: a request whose single file
write (`write_all`) failed still creates the `media_uploads` row — the
store holds the row (id 2) while the file at its recorded path holds
none of the payload bytes. -/
theorem media_row_created_despite_write_failure :
    ((uploadFinalDB c8run aliceDB).media.map (fun m => (m.id, m.file_path))) =
      [(2, "uploads/a.jpg")] ∧
    (match c8run with | .ok _ _ fs => fs | _ => []) = [("uploads/a.jpg", [])] := by
  decide

/-- Counterexample to claim C9 as stated: two distinct uploads in one
request carrying the same filename are stored at the SAME path
`uploads/a.jpg` (the later write overwrites the earlier bytes), so the
chosen paths are not collision-avoiding. -/
theorem same_filename_shares_storage_path :
    ((uploadFinalDB c9run aliceDB).media.map (fun m => m.file_path)) =
      ["uploads/a.jpg", "uploads/a.jpg"] ∧
    (match c9run with | .ok _ _ fs => fs | _ => []) = [("uploads/a.jpg", [2])] := by
  decide

/-! ### Per-file loop lemmas -/

theorem processFile_media_ids {pid uid : Nat} {acc acc' : LoopAcc}
    {f : String × List Nat} {c : FileChoices}
    (h : processFile pid uid acc f c = some acc') :
    acc'.media_ids = acc.media_ids ++ [c.mediaId] := by
  unfold processFile at h
  split at h
  · exact absurd h (by simp)
  · simp only [Option.some.injEq] at h
    subst h
    rfl

theorem processFiles_media_ids (pid uid : Nat) :
    ∀ (fs : List ((String × List Nat) × FileChoices)) (acc : LoopAcc),
      (processFiles pid uid acc fs).2 = false →
      (processFiles pid uid acc fs).1.media_ids =
        acc.media_ids ++ fs.map (fun fc => fc.2.mediaId) := by
  intro fs
  induction fs with
  | nil => intro acc _; simp [processFiles]
  | cons fc rest ih =>
      intro acc hok
      obtain ⟨f, c⟩ := fc
      unfold processFiles at hok ⊢
      cases hpf : processFile pid uid acc f c with
      | none => rw [hpf] at hok; simp at hok
      | some acc' =>
          rw [hpf] at hok
          have hok' : (processFiles pid uid acc' rest).2 = false := hok
          show (processFiles pid uid acc' rest).1.media_ids =
            acc.media_ids ++ List.map (fun fc => fc.2.mediaId) ((f, c) :: rest)
          rw [ih acc' hok', processFile_media_ids hpf]
          simp

/-- Claim C8 (amended): a failed `write_all` is ignored — the
database-visible outcome of processing a file (the store, the token
total and the `media_ids` accumulator, hence the MediaItem row's
creation) is identical whatever the write result, and sibling files
keep being processed; the only per-file abort is a failed
`File::create`, whose `.unwrap()` panics the whole handler. -/
theorem write_failure_does_not_affect_db (pid uid : Nat) (acc : LoopAcc)
    (f : String × List Nat) (c : FileChoices) (w : Bool) :
    sameDbOutcome (processFile pid uid acc f c)
      (processFile pid uid acc f { c with writeOk := w }) ∧
    ((processFile pid uid acc f c).isSome ↔ c.createOk = true) := by
  cases hc : c.createOk <;> simp [processFile, hc, sameDbOutcome]

/-- Claim C7 (amended): the response's `media_ids` has exactly one
entry per received file — the freshly generated identifier — pushed
whether or not that file's `media_uploads` insert succeeded, so
identifiers of non-persisted rows do appear in the response. -/
theorem upload_media_ids_one_per_file (db : DB) (fsys : FileSys) (uid? : Option Nat)
    (t l : String) (pr : F64) (d : String) (bed bath : Option Int) (ar : Option F64)
    (pid : Nat) (pOk : Bool) (files : List ((String × List Nat) × FileChoices))
    (resp : UploadResponse)
    (h : respOf (upload_property db fsys uid? t l pr d bed bath ar pid pOk files) = some resp) :
    resp.media_ids = files.map (fun fc => fc.2.mediaId) := by
  unfold upload_property at h
  split at h
  · simp [respOf] at h
  · rename_i uid
    split at h
    · simp [respOf] at h
    · dsimp only at h
      split at h
      · simp [respOf] at h
      · rename_i p acc heq
        simp only [respOf, Option.some.injEq] at h
        subst h
        have h1 := congrArg Prod.fst heq
        have := processFiles_media_ids pid uid files _ (by rw [heq])
        rw [h1] at this
        simpa using this

/-- Witness for the amended C7 at the failed-insert request `c7run`. -/
theorem upload_media_ids_one_per_file_witness : c7resp.media_ids = [2] := by
  have h := upload_media_ids_one_per_file aliceDB [] (some 0) "t" "l" ⟨0⟩ "d"
      none none none 1 true [(("a.jpg", [1]), { allOk 2 3 with insertOk := false })]
      c7resp (by decide)
  simpa using h

theorem award_getD_media (db : DB) (uid mid : Nat) (amt : Int) (txId : Nat)
    (b u i c : Bool) :
    ((award_tokens db uid mid amt txId b u i c).getD db).media = db.media := by
  cases h : award_tokens db uid mid amt txId b u i c with
  | none => rfl
  | some db' => simpa using (award_tokens_some_spec h).2.2.1

theorem mediaInsert_media (db : DB) (row : MediaRow) (ok : Bool) :
    (mediaInsert db row ok).media = db.media ∨
    (mediaInsert db row ok).media = db.media ++ [row] := by
  unfold mediaInsert
  split
  · exact Or.inl rfl
  · exact Or.inr rfl

theorem mem_mediaInsert {db : DB} {row : MediaRow} {ok : Bool} {m : MediaRow}
    (hm : m ∈ (mediaInsert db row ok).media) : m ∈ db.media ∨ m = row := by
  rcases mediaInsert_media db row ok with h | h <;> rw [h] at hm
  · exact Or.inl hm
  · rcases List.mem_append.mp hm with h' | h'
    · exact Or.inl h'
    · exact Or.inr (List.mem_singleton.mp h')

/-- Claim C9 (amended): the stored path of every MediaItem row a file
creates is `uploads/<filename>` — derived from the user-supplied
filename alone, with no fresh identifier — so two uploads carrying the
same filename share the same storage path (and the later write
overwrites the earlier bytes). -/
theorem media_path_derived_from_filename (pid uid : Nat) (acc : LoopAcc)
    (filename : String) (file_data : List Nat) (c : FileChoices) :
    ∀ m ∈ ((processFile pid uid acc (filename, file_data) c).getD acc).db.media,
      m ∈ acc.db.media ∨ m.file_path = uploadFilePath filename := by
  intro m hm
  cases hpf : processFile pid uid acc (filename, file_data) c with
  | none => rw [hpf] at hm; exact Or.inl hm
  | some acc' =>
      rw [hpf] at hm
      unfold processFile at hpf
      split at hpf
      · exact absurd hpf (by simp)
      · simp only [Option.some.injEq] at hpf
        subst hpf
        simp only [Option.getD_some] at hm
        dsimp only at hm
        split at hm
        · rw [award_getD_media] at hm
          rcases mem_mediaInsert hm with h | h
          · exact Or.inl h
          · subst h; exact Or.inr rfl
        · rcases mem_mediaInsert hm with h | h
          · exact Or.inl h
          · subst h; exact Or.inr rfl

/-- Witness for the amended C9: the row created for `("a.jpg", [1])`
carries path `uploads/a.jpg`. -/
theorem media_path_derived_from_filename_witness :
    c9row ∈ c9acc0.db.media ∨ c9row.file_path = uploadFilePath "a.jpg" :=
  media_path_derived_from_filename 1 0 c9acc0 "a.jpg" [1] (allOk 2 3) c9row (by
    have h : ((processFile 1 0 c9acc0 ("a.jpg", [1]) (allOk 2 3)).getD c9acc0).db.media
        = [c9row] := by decide
    rw [h]
    exact List.mem_singleton.mpr rfl)

/-! ### The ledger invariant (C4) -/

theorem sumAmounts_append (txs : List TxRow) (t : TxRow) (x : Nat) :
    sumAmounts (txs ++ [t]) x =
      sumAmounts txs x + (if t.user_id == x then t.amount else 0) := by
  simp only [sumAmounts, List.filter_append, List.map_append, List.sum_append]
  by_cases h : (t.user_id == x) = true <;> simp [List.filter_cons, h]

theorem mem_bumpBalance {users : List UserRow} {uid : Nat} {amt : Int} {u' : UserRow}
    (h : u' ∈ bumpBalance users uid amt) :
    ∃ u, u ∈ users ∧ u' = if u.id == uid
      then { u with token_balance := u.token_balance + amt } else u := by
  unfold bumpBalance at h
  obtain ⟨u, hu, hequ⟩ := List.mem_map.mp h
  exact ⟨u, hu, hequ.symm⟩

theorem bumpBalance_id_mem (users : List UserRow) (uid : Nat) (amt : Int) (x : Nat)
    (h : ∃ u, u ∈ users ∧ u.id = x) :
    ∃ u, u ∈ bumpBalance users uid amt ∧ u.id = x := by
  obtain ⟨u, hu, hx⟩ := h
  refine ⟨if u.id == uid then { u with token_balance := u.token_balance + amt } else u,
    List.mem_map.mpr ⟨u, hu, rfl⟩, ?_⟩
  split <;> simpa using hx

theorem ledgerInv_award (db : DB) (uid mid : Nat) (amt : Int) (txId : Nat)
    (b u i c : Bool) (h : LedgerInv db) :
    LedgerInv ((award_tokens db uid mid amt txId b u i c).getD db) := by
  cases haw : award_tokens db uid mid amt txId b u i c with
  | none => simpa using h
  | some db' =>
      obtain ⟨husers, htxs, hmedia, hprops, hany, -⟩ := award_tokens_some_spec haw
      obtain ⟨hbal, hfk⟩ := h
      simp only [Option.getD_some]
      constructor
      · intro u' hu'
        rw [husers] at hu'
        obtain ⟨u0, hu0, hequ⟩ := mem_bumpBalance hu'
        rw [htxs, sumAmounts_append]
        by_cases hid : (u0.id == uid) = true
        · simp only [hid, if_true] at hequ
          subst hequ
          have hid' : u0.id = uid := by simpa using hid
          simp [hid', hbal u0 hu0]
        · simp only [hid, if_false] at hequ
          subst hequ
          have hne : uid ≠ u'.id := by
            intro hh
            exact hid (by simp [hh])
          simp [beq_iff_eq, hne, hbal u' hu0]
      · intro t ht
        rw [husers, htxs] at *
        rcases List.mem_append.mp ht with ht' | ht'
        · exact bumpBalance_id_mem _ _ _ _ (hfk t ht')
        · rcases List.mem_singleton.mp ht' with rfl
          refine bumpBalance_id_mem _ _ _ _ ?_
          obtain ⟨u0, hu0, hbeq⟩ := List.any_eq_true.mp hany
          exact ⟨u0, hu0, by simpa using hbeq⟩

theorem ledgerInv_mediaInsert (db : DB) (row : MediaRow) (ok : Bool)
    (h : LedgerInv db) : LedgerInv (mediaInsert db row ok) := by
  unfold mediaInsert
  split
  · exact h
  · exact h

theorem ledgerInv_processFile {pid uid : Nat} {acc acc' : LoopAcc}
    {f : String × List Nat} {c : FileChoices}
    (hpf : processFile pid uid acc f c = some acc') (h : LedgerInv acc.db) :
    LedgerInv acc'.db := by
  unfold processFile at hpf
  split at hpf
  · exact absurd hpf (by simp)
  · simp only [Option.some.injEq] at hpf
    subst hpf
    dsimp only
    split
    · exact ledgerInv_award _ _ _ _ _ _ _ _ _ (ledgerInv_mediaInsert _ _ _ h)
    · exact ledgerInv_mediaInsert _ _ _ h

theorem ledgerInv_processFiles (pid uid : Nat) :
    ∀ (fs : List ((String × List Nat) × FileChoices)) (acc : LoopAcc),
      LedgerInv acc.db → LedgerInv (processFiles pid uid acc fs).1.db := by
  intro fs
  induction fs with
  | nil => intro acc h; exact h
  | cons fc rest ih =>
      intro acc h
      obtain ⟨f, c⟩ := fc
      unfold processFiles
      cases hpf : processFile pid uid acc f c with
      | none => exact h
      | some acc' => exact ih acc' (ledgerInv_processFile hpf h)

theorem ledgerInv_upload (db : DB) (fsys : FileSys) (uid? : Option Nat)
    (t l : String) (pr : F64) (d : String) (bed bath : Option Int) (ar : Option F64)
    (pid : Nat) (pOk : Bool) (files : List ((String × List Nat) × FileChoices))
    (h : LedgerInv db) :
    LedgerInv (uploadFinalDB
      (upload_property db fsys uid? t l pr d bed bath ar pid pOk files) db) := by
  unfold upload_property
  split
  · exact h
  · rename_i uid
    split
    · exact h
    · dsimp only
      have h0 : LedgerInv ({ db with properties := db.properties ++
          [⟨pid, t, l, pr, d, none, none, bed, bath, ar, some uid, none⟩] } : DB) := h
      split
      · rename_i acc heq
        have hinv := ledgerInv_processFiles pid uid files
          ⟨{ db with properties := db.properties ++
              [⟨pid, t, l, pr, d, none, none, bed, bath, ar, some uid, none⟩] },
            fsys, 0, []⟩ h0
        rw [heq] at hinv
        exact hinv
      · rename_i acc heq
        have hinv := ledgerInv_processFiles pid uid files
          ⟨{ db with properties := db.properties ++
              [⟨pid, t, l, pr, d, none, none, bed, bath, ar, some uid, none⟩] },
            fsys, 0, []⟩ h0
        rw [heq] at hinv
        exact hinv

theorem ledgerInv_create_user {db : DB} {i : Nat} {un : String} {w : Option String}
    {ok : Bool} {u : UserRow} {db' : DB}
    (hc : create_user db i un w ok = some (u, db')) (h : LedgerInv db) : LedgerInv db' := by
  unfold create_user at hc
  split at hc
  · exact absurd hc (by simp)
  · rename_i hcond
    simp only [Option.some.injEq, Prod.mk.injEq] at hc
    obtain ⟨-, hdb'⟩ := hc
    subst hdb'
    obtain ⟨hbal, hfk⟩ := h
    simp only [Bool.or_eq_true] at hcond
    push_neg at hcond
    obtain ⟨⟨-, hnoid⟩, -⟩ := hcond
    constructor
    · intro u' hu'
      rcases List.mem_append.mp hu' with hu' | hu'
      · exact hbal u' hu'
      · rcases List.mem_singleton.mp hu' with rfl
        have hnone : ∀ t ∈ db.transactions, ¬((fun t => t.user_id == i) t = true) := by
          intro t ht hbeq
          obtain ⟨u0, hu0, hid⟩ := hfk t ht
          apply hnoid
          refine List.any_eq_true.mpr ⟨u0, hu0, ?_⟩
          have : t.user_id = i := by simpa using hbeq
          simp [hid, this]
        show (0 : Int) = sumAmounts db.transactions i
        unfold sumAmounts
        rw [List.filter_eq_nil_iff.mpr hnone]
        rfl
    · intro t ht
      obtain ⟨u0, hu0, hid⟩ := hfk t ht
      exact ⟨u0, List.mem_append_left _ hu0, hid⟩

theorem ledgerInv_reachable {db : DB} (h : Reachable db) : LedgerInv db := by
  induction h with
  | init =>
      refine ⟨?_, ?_⟩ <;> intro x hx <;> simp [initDB] at hx
  | createUser _ hc ih => exact ledgerInv_create_user hc ih
  | upload _ ih => exact ledgerInv_upload _ _ _ _ _ _ _ _ _ _ _ _ _ ih

/-- Claim C4 (confirmed): in every reachable store state, for every
user the sum of that user's `token_transactions` amounts equals the
user's current balance minus its initial value of 0 — users are
created with `token_balance DEFAULT 0` and only `award_tokens` mutates
balances, always pairing the increment with a matching ledger row. -/
theorem user_balance_matches_ledger (db : DB) (hdb : Reachable db) :
    ∀ u ∈ db.users, sumAmounts db.transactions u.id = u.token_balance - 0 := by
  intro u hu
  have := (ledgerInv_reachable hdb).1 u hu
  omega

/-- Witness for C4 at the reachable state after `create_user` and one
rewarded upload: alice's balance 100 matches the one ledger entry. -/
theorem user_balance_matches_ledger_witness :
    sumAmounts c1db1.transactions 0 = (100 : Int) - 0 := by
  have halice : Reachable aliceDB :=
    @Reachable.createUser initDB 0 "alice" none true ⟨0, "alice", none, 0⟩ aliceDB
      Reachable.init (by decide)
  have hr : Reachable c1db1 :=
    @Reachable.upload aliceDB [] (some 0) "t" "l" ⟨0⟩ "d" none none none 1 true
      [(("a.jpg", [1, 2, 3]), allOk 2 3)] halice
  have := user_balance_matches_ledger c1db1 hr ⟨0, "alice", none, 100⟩ (by decide)
  simpa using this

/-! ### The content-hash uniqueness invariant (C5) -/

theorem hashesNodup_mediaInsert (db : DB) (row : MediaRow) (ok : Bool)
    (h : HashesNodup db) : HashesNodup (mediaInsert db row ok) := by
  unfold mediaInsert
  split
  · exact h
  · rename_i hcond
    have hnotin : row.content_hash ∉ db.media.map (fun m => m.content_hash) := by
      intro hmem
      obtain ⟨m, hm, hemq⟩ := List.mem_map.mp hmem
      apply hcond
      simp only [Bool.or_eq_true]
      exact Or.inr (List.any_eq_true.mpr ⟨m, hm, by simp [hemq]⟩)
    unfold HashesNodup at h ⊢
    dsimp only
    rw [List.map_append]
    refine List.Nodup.append h (List.nodup_singleton _) ?_
    intro x hx hxmem
    rcases List.mem_singleton.mp hxmem with rfl
    exact hnotin hx

theorem hashesNodup_award (db : DB) (uid mid : Nat) (amt : Int) (txId : Nat)
    (b u i c : Bool) (h : HashesNodup db) :
    HashesNodup ((award_tokens db uid mid amt txId b u i c).getD db) := by
  unfold HashesNodup at h ⊢
  rw [award_getD_media]
  exact h

theorem hashesNodup_processFile {pid uid : Nat} {acc acc' : LoopAcc}
    {f : String × List Nat} {c : FileChoices}
    (hpf : processFile pid uid acc f c = some acc') (h : HashesNodup acc.db) :
    HashesNodup acc'.db := by
  unfold processFile at hpf
  split at hpf
  · exact absurd hpf (by simp)
  · simp only [Option.some.injEq] at hpf
    subst hpf
    dsimp only
    split
    · exact hashesNodup_award _ _ _ _ _ _ _ _ _ (hashesNodup_mediaInsert _ _ _ h)
    · exact hashesNodup_mediaInsert _ _ _ h

theorem hashesNodup_processFiles (pid uid : Nat) :
    ∀ (fs : List ((String × List Nat) × FileChoices)) (acc : LoopAcc),
      HashesNodup acc.db → HashesNodup (processFiles pid uid acc fs).1.db := by
  intro fs
  induction fs with
  | nil => intro acc h; exact h
  | cons fc rest ih =>
      intro acc h
      obtain ⟨f, c⟩ := fc
      unfold processFiles
      cases hpf : processFile pid uid acc f c with
      | none => exact h
      | some acc' => exact ih acc' (hashesNodup_processFile hpf h)

theorem hashesNodup_upload (db : DB) (fsys : FileSys) (uid? : Option Nat)
    (t l : String) (pr : F64) (d : String) (bed bath : Option Int) (ar : Option F64)
    (pid : Nat) (pOk : Bool) (files : List ((String × List Nat) × FileChoices))
    (h : HashesNodup db) :
    HashesNodup (uploadFinalDB
      (upload_property db fsys uid? t l pr d bed bath ar pid pOk files) db) := by
  unfold upload_property
  split
  · exact h
  · rename_i uid
    split
    · exact h
    · dsimp only
      have h0 : HashesNodup ({ db with properties := db.properties ++
          [⟨pid, t, l, pr, d, none, none, bed, bath, ar, some uid, none⟩] } : DB) := h
      split
      · rename_i acc heq
        have hinv := hashesNodup_processFiles pid uid files
          ⟨{ db with properties := db.properties ++
              [⟨pid, t, l, pr, d, none, none, bed, bath, ar, some uid, none⟩] },
            fsys, 0, []⟩ h0
        rw [heq] at hinv
        exact hinv
      · rename_i acc heq
        have hinv := hashesNodup_processFiles pid uid files
          ⟨{ db with properties := db.properties ++
              [⟨pid, t, l, pr, d, none, none, bed, bath, ar, some uid, none⟩] },
            fsys, 0, []⟩ h0
        rw [heq] at hinv
        exact hinv

theorem hashesNodup_create_user {db : DB} {i : Nat} {un : String} {w : Option String}
    {ok : Bool} {u : UserRow} {db' : DB}
    (hc : create_user db i un w ok = some (u, db')) (h : HashesNodup db) :
    HashesNodup db' := by
  unfold create_user at hc
  split at hc
  · exact absurd hc (by simp)
  · simp only [Option.some.injEq, Prod.mk.injEq] at hc
    obtain ⟨-, hdb'⟩ := hc
    subst hdb'
    exact h

theorem hashesNodup_reachable {db : DB} (h : Reachable db) : HashesNodup db := by
  induction h with
  | init => exact List.nodup_nil
  | createUser _ hc ih => exact hashesNodup_create_user hc ih
  | upload _ ih => exact hashesNodup_upload _ _ _ _ _ _ _ _ _ _ _ _ _ ih

theorem nodup_key_filter_length_le_one {α : Type} (l : List α) (f : α → String)
    (p : α → Bool) (x : String) (h : (l.map f).Nodup) :
    (l.filter (fun a => f a == x && p a)).length ≤ 1 := by
  induction l with
  | nil => simp
  | cons a l ih =>
      rw [List.map_cons, List.nodup_cons] at h
      obtain ⟨hnot, hl⟩ := h
      rw [List.filter_cons]
      split
      · rename_i hcond
        have hfa : f a = x := by
          have := (Bool.and_eq_true _ _).mp hcond
          simpa using this.1
        have hfilter : l.filter (fun b => f b == x && p b) = [] := by
          rw [List.filter_eq_nil_iff]
          intro b hb hcontra
          have hfb : f b = x := by
            have := (Bool.and_eq_true _ _).mp hcontra
            simpa using this.1
          have : f a ∈ List.map f l := List.mem_map.mpr ⟨b, hb, by rw [hfb, hfa]⟩
          exact hnot this
        simp [hfilter]
      · exact ih hl

/-- Claim C5 (confirmed): in every reachable store state, for each
distinct content fingerprint at most one `media_uploads` row has
`is_original = true`.  This follows from the stronger fact that the
blanket UNIQUE constraint keeps all stored fingerprints pairwise
distinct. -/
theorem at_most_one_original_per_digest (db : DB) (hdb : Reachable db) (digest : String) :
    (db.media.filter (fun m => m.content_hash == digest && m.is_original)).length ≤ 1 :=
  nodup_key_filter_length_le_one db.media (fun m => m.content_hash)
    (fun m => m.is_original) digest (hashesNodup_reachable hdb)

/-- Witness for C5 at the reachable state after an original upload and
a duplicate re-upload of the same bytes, queried at that digest. -/
theorem at_most_one_original_per_digest_witness :
    (c1db2.media.filter
      (fun m => m.content_hash == calculate_file_hash [1, 2, 3] && m.is_original)).length ≤ 1 := by
  have halice : Reachable aliceDB :=
    @Reachable.createUser initDB 0 "alice" none true ⟨0, "alice", none, 0⟩ aliceDB
      Reachable.init (by decide)
  have hr1 : Reachable c1db1 :=
    @Reachable.upload aliceDB [] (some 0) "t" "l" ⟨0⟩ "d" none none none 1 true
      [(("a.jpg", [1, 2, 3]), allOk 2 3)] halice
  have hr2 : Reachable c1db2 :=
    @Reachable.upload c1db1 [] (some 0) "t" "l" ⟨0⟩ "d" none none none 4 true
      [(("a.jpg", [1, 2, 3]), allOk 5 6)] hr1
  exact at_most_one_original_per_digest c1db2 hr2 (calculate_file_hash [1, 2, 3])
